import Mathlib

/-!
Verification of the MarkBind CLI orchestrator (src/index.js).

The development shallowly embeds the command layer of the MarkBind static
site generator: the user-defined-variable store built by the `include`
command, the config objects passed to the fragment engine by `include` and
`render`, the watch-event dispatcher and its ignore policy used by `serve`,
and the promise chain that sequences site-config reading, full generation,
watcher installation and preview-server startup.

External collaborators (the cheerio HTML parser, the chokidar watcher, the
Site builder, the live server) are modelled by their outcomes: a function
argument or an `Except` value stands for the result the collaborator
delivers, and the definitions here reproduce exactly what src/index.js does
with that result.
-/

set_option autoImplicit false

namespace MarkBindCli

/-! ## Log model

`logger.info` / `logger.warn` / `logger.error` calls are recorded as a list
of entries, in call order. -/

inductive LogEntry where
  | info (msg : String)
  | warn (msg : String)
  | error (msg : String)
  deriving DecidableEq, Repr

/-! ## Variable store

In src/index.js (include action, lines 57-76) the user variables file is
read, parsed by cheerio, and each top-level child element contributes
`userDefinedVariables[id] = html` where `id = $(this).attr('id')`.  When the
element has no `id` attribute, `attr` yields `undefined`, and the JavaScript
property assignment coerces that key to the string `"undefined"`.  Finally
`userDefinedVariables.baseUrl = '{{baseUrl}}'` is assigned unconditionally.

A top-level element is modelled by its optional `id` attribute and its inner
HTML; the object `userDefinedVariables` is modelled as an association list
with unique keys, where assignment overwrites any previous binding. -/

/-- A top-level element of the variables file: its optional `id` attribute
and its inner HTML, as produced by the cheerio collaborator. -/
structure VarElem where
  id : Option String
  html : String
  deriving DecidableEq, Repr

/-- The property key a JavaScript assignment `obj[id] = html` uses: the `id`
attribute, or the string coercion of `undefined` when the attribute is
absent. -/
def varKey (e : VarElem) : String :=
  e.id.getD "undefined"

/-- A JavaScript-object-like map from variable names to HTML strings. -/
abbrev VarMap : Type := List (String × String)

/-- Property assignment `m[k] = v`: overwrites any existing binding of `k`. -/
def setVar (m : VarMap) (k v : String) : VarMap :=
  (m.filter (fun p => p.1 ≠ k)) ++ [(k, v)]

/-- Property lookup: the value bound to `k`, if any. -/
def lookupVar (m : VarMap) (k : String) : Option String :=
  match m with
  | [] => none
  | p :: rest => if p.1 = k then some p.2 else lookupVar rest k

/-- The keys of the map, in storage order. -/
abbrev keysOf (m : VarMap) : List String :=
  m.map Prod.fst

/-- The cheerio loop of the include action, started from an arbitrary map:
each top-level element assigns `m[varKey e] = e.html` in order. -/
def parseInto (m : VarMap) (elems : List VarElem) : VarMap :=
  match elems with
  | [] => m
  | e :: rest => parseInto (setVar m (varKey e) e.html) rest

/-- The cheerio loop of the include action (lines 66-71): fold the top-level
elements into an initially empty object. -/
def parseUserVariables (elems : List VarElem) : VarMap :=
  parseInto [] elems

/-- Line 75: `userDefinedVariables.baseUrl = '{{baseUrl}}'`, performed after
the parse loop. -/
def injectBaseUrlPlaceholder (m : VarMap) : VarMap :=
  setVar m "baseUrl" "{{baseUrl}}"

/-- The full variable preparation of the include action: parse the top-level
elements, then force the `baseUrl` placeholder. -/
def processUserVariables (elems : List VarElem) : VarMap :=
  injectBaseUrlPlaceholder (parseUserVariables elems)

/-- The variables-file read of lines 59-65: `fs.readFileSync` either
delivers the file (here already parsed by cheerio into its top-level
elements) or throws; the catch branch substitutes the empty content `''`,
whose cheerio document has no top-level elements, and logs a warning. -/
def loadVariableElems (fileRead : Except String (List VarElem)) :
    List VarElem × List LogEntry :=
  match fileRead with
  | Except.ok elems => (elems, [])
  | Except.error msg => ([], [LogEntry.warn msg])

/-! ### Lemmas about the variable store -/

theorem lookupVar_nil (k : String) : lookupVar [] k = none := rfl

theorem lookupVar_cons (p : String × String) (l : VarMap) (k : String) :
    lookupVar (p :: l) k = if p.1 = k then some p.2 else lookupVar l k := rfl

theorem lookupVar_append (m₁ m₂ : VarMap) (k : String) :
    lookupVar (m₁ ++ m₂) k =
      match lookupVar m₁ k with
      | some v => some v
      | none => lookupVar m₂ k := by
  induction m₁ with
  | nil => simp [lookupVar]
  | cons p rest ih =>
    by_cases h : p.1 = k
    · simp [lookupVar, h]
    · simp [lookupVar, h, ih]

theorem lookupVar_filter_ne (m : VarMap) (k : String) :
    lookupVar (m.filter (fun p => p.1 ≠ k)) k = none := by
  induction m with
  | nil => rfl
  | cons p rest ih =>
    rw [List.filter_cons]
    by_cases h : p.1 = k
    · rw [if_neg (by simp [h])]
      exact ih
    · rw [if_pos (by simp [h]), lookupVar_cons, if_neg h]
      exact ih

theorem lookupVar_filter_eq (m : VarMap) (k k' : String) (hne : k' ≠ k) :
    lookupVar (m.filter (fun p => p.1 ≠ k)) k' = lookupVar m k' := by
  induction m with
  | nil => rfl
  | cons p rest ih =>
    rw [List.filter_cons, lookupVar_cons]
    by_cases h : p.1 = k
    · have hp : ¬p.1 = k' := by
        rw [h]
        exact fun hk => hne hk.symm
      rw [if_neg (by simp [h]), if_neg hp]
      exact ih
    · rw [if_pos (by simp [h]), lookupVar_cons]
      by_cases h2 : p.1 = k'
      · rw [if_pos h2, if_pos h2]
      · rw [if_neg h2, if_neg h2]
        exact ih

theorem lookupVar_setVar_self (m : VarMap) (k v : String) :
    lookupVar (setVar m k v) k = some v := by
  unfold setVar
  rw [lookupVar_append, lookupVar_filter_ne]
  show lookupVar [(k, v)] k = some v
  rw [lookupVar_cons, if_pos rfl]

theorem lookupVar_setVar_ne (m : VarMap) (k v k' : String) (h : k' ≠ k) :
    lookupVar (setVar m k v) k' = lookupVar m k' := by
  unfold setVar
  rw [lookupVar_append, lookupVar_filter_eq m k k' h]
  cases hm : lookupVar m k' with
  | some v' => rfl
  | none =>
    rw [lookupVar_cons, if_neg (fun hk => h hk.symm)]
    rfl

/-- The value the parse loop leaves under key `k`: the inner HTML of the
last element whose key is `k`, if any (later occurrences win). -/
def lastVal (elems : List VarElem) (k : String) : Option String :=
  match elems with
  | [] => none
  | e :: rest =>
    match lastVal rest k with
    | some v => some v
    | none => if varKey e = k then some e.html else none

theorem lookupVar_parseInto (elems : List VarElem) (m : VarMap) (k : String) :
    lookupVar (parseInto m elems) k =
      match lastVal elems k with
      | some v => some v
      | none => lookupVar m k := by
  induction elems generalizing m with
  | nil => simp [parseInto, lastVal]
  | cons e rest ih =>
    show lookupVar (parseInto (setVar m (varKey e) e.html) rest) k = _
    rw [ih]
    cases hrest : lastVal rest k with
    | some v => simp [lastVal, hrest]
    | none =>
      by_cases hk : varKey e = k
      · simp [lastVal, hrest, hk, hk ▸ lookupVar_setVar_self m (varKey e) e.html]
      · have hk' : k ≠ varKey e := fun h => hk h.symm
        simp [lastVal, hrest, hk, lookupVar_setVar_ne m (varKey e) e.html k hk']

theorem lookupVar_parseUserVariables (elems : List VarElem) (k : String) :
    lookupVar (parseUserVariables elems) k = lastVal elems k := by
  unfold parseUserVariables
  rw [lookupVar_parseInto]
  cases lastVal elems k <;> simp [lookupVar]

theorem lookupVar_processUserVariables_baseUrl (elems : List VarElem) :
    lookupVar (processUserVariables elems) "baseUrl" = some "{{baseUrl}}" := by
  unfold processUserVariables injectBaseUrlPlaceholder
  exact lookupVar_setVar_self _ _ _

theorem lookupVar_processUserVariables_ne (elems : List VarElem) (k : String)
    (h : k ≠ "baseUrl") :
    lookupVar (processUserVariables elems) k = lastVal elems k := by
  unfold processUserVariables injectBaseUrlPlaceholder
  rw [lookupVar_setVar_ne _ _ _ _ h, lookupVar_parseUserVariables]

/-! ### Cardinality of the variable map -/

/-- The keys of the object are pairwise distinct — the invariant JavaScript
objects enjoy and `setVar` preserves. -/
abbrev KeysNodup (m : VarMap) : Prop :=
  (keysOf m).Nodup

theorem lookupVar_eq_none_iff (m : VarMap) (k : String) :
    lookupVar m k = none ↔ k ∉ keysOf m := by
  induction m with
  | nil => simp [lookupVar]
  | cons p rest ih =>
    rw [lookupVar_cons]
    simp only [keysOf, List.map_cons, List.mem_cons]
    by_cases h : p.1 = k
    · simp [h]
    · rw [if_neg h]
      constructor
      · intro hn hc
        rcases hc with hc | hc
        · exact h hc.symm
        · exact (ih.1 hn) hc
      · intro hn
        exact ih.2 (fun hc => hn (Or.inr hc))

theorem mem_keysOf_filter (m : VarMap) (k x : String)
    (h : x ∈ keysOf (m.filter (fun p => p.1 ≠ k))) : x ∈ keysOf m ∧ x ≠ k := by
  obtain ⟨p, hp, hx⟩ := List.mem_map.1 h
  obtain ⟨hpm, hpk⟩ := List.mem_filter.1 hp
  refine ⟨List.mem_map.2 ⟨p, hpm, hx⟩, ?_⟩
  rw [← hx]
  simpa using hpk

theorem mem_keysOf_setVar (m : VarMap) (k v x : String)
    (h : x ∈ keysOf (setVar m k v)) : x ∈ keysOf m ∨ x = k := by
  unfold setVar at h
  rw [keysOf, List.map_append] at h
  rcases List.mem_append.1 h with h1 | h1
  · exact Or.inl (mem_keysOf_filter m k x h1).1
  · exact Or.inr (by simpa using h1)

theorem keysNodup_setVar (m : VarMap) (k v : String) (h : KeysNodup m) :
    KeysNodup (setVar m k v) := by
  have hkeys : keysOf (setVar m k v)
      = keysOf (m.filter (fun p => p.1 ≠ k)) ++ [k] := by
    unfold setVar
    rw [keysOf, List.map_append]
    rfl
  rw [KeysNodup, hkeys, List.nodup_append]
  refine ⟨?_, List.nodup_singleton k, ?_⟩
  · have hsub : List.Sublist (keysOf (m.filter (fun p => p.1 ≠ k))) (keysOf m) :=
      List.Sublist.map Prod.fst (List.filter_sublist m)
    exact List.Nodup.sublist hsub h
  · intro x hx hk
    have hxk : x = k := by simpa using hk
    exact (mem_keysOf_filter m k x hx).2 hxk

theorem length_setVar_of_not_mem (m : VarMap) (k v : String)
    (h : k ∉ keysOf m) : (setVar m k v).length = m.length + 1 := by
  unfold setVar
  have hf : m.filter (fun p => p.1 ≠ k) = m := by
    rw [List.filter_eq_self]
    intro p hp
    simp only [decide_eq_true_eq]
    intro hpk
    exact h (List.mem_map.2 ⟨p, hp, hpk⟩)
  rw [hf, List.length_append]
  rfl

theorem length_setVar_of_mem (m : VarMap) (k v : String) (hn : KeysNodup m)
    (h : k ∈ keysOf m) : (setVar m k v).length = m.length := by
  induction m with
  | nil => simp at h
  | cons p rest ih =>
    simp only [KeysNodup, keysOf, List.map_cons, List.nodup_cons] at hn
    unfold setVar
    rw [List.filter_cons]
    by_cases hp : p.1 = k
    · rw [if_neg (by simp [hp])]
      have hrest : rest.filter (fun q => q.1 ≠ k) = rest := by
        rw [List.filter_eq_self]
        intro q hq
        simp only [decide_eq_true_eq]
        intro hqk
        exact hn.1 (hp ▸ hqk ▸ List.mem_map.2 ⟨q, hq, rfl⟩)
      rw [hrest, List.length_append]
      simp
    · rw [if_pos (by simp [hp])]
      have hk : k ∈ keysOf rest := by
        rcases (by simpa using h : k = p.1 ∨ k ∈ rest.map Prod.fst) with h1 | h1
        · exact absurd h1.symm hp
        · exact h1
      have hlen := ih hn.2 hk
      unfold setVar at hlen
      rw [List.length_append] at hlen
      simp only [List.cons_append, List.length_cons, List.length_append] at hlen ⊢
      omega

theorem lastVal_eq_none_iff (elems : List VarElem) (k : String) :
    lastVal elems k = none ↔ k ∉ elems.map varKey := by
  induction elems with
  | nil => simp [lastVal]
  | cons e rest ih =>
    rw [List.map_cons, List.mem_cons]
    show (match lastVal rest k with
      | some v => some v
      | none => if varKey e = k then some e.html else none) = none ↔ _
    cases hrest : lastVal rest k with
    | some v =>
      have hk : k ∈ rest.map varKey := by
        by_contra hc
        rw [ih.2 hc] at hrest
        cases hrest
      constructor
      · intro hc
        exact Option.noConfusion hc
      · intro hc
        exact (hc (Or.inr hk)).elim
    | none =>
      by_cases hk : varKey e = k
      · rw [if_pos hk]
        constructor
        · intro hc
          exact Option.noConfusion hc
        · intro hc
          exact (hc (Or.inl hk.symm)).elim
      · rw [if_neg hk]
        constructor
        · intro _ hc
          rcases hc with hc | hc
          · exact hk hc.symm
          · exact (ih.1 hrest) hc
        · intro _
          rfl

theorem keysNodup_parseInto (m : VarMap) (elems : List VarElem)
    (h : KeysNodup m) : KeysNodup (parseInto m elems) := by
  induction elems generalizing m with
  | nil => exact h
  | cons e rest ih => exact ih _ (keysNodup_setVar _ _ _ h)

theorem length_parseInto_distinct (elems : List VarElem) (m : VarMap)
    (hn : KeysNodup m) (hnd : (elems.map varKey).Nodup)
    (hdisj : ∀ e ∈ elems, varKey e ∉ keysOf m) :
    (parseInto m elems).length = m.length + elems.length := by
  induction elems generalizing m with
  | nil => rfl
  | cons e rest ih =>
    show (parseInto (setVar m (varKey e) e.html) rest).length = _
    rw [List.map_cons, List.nodup_cons] at hnd
    have hlen := length_setVar_of_not_mem m (varKey e) e.html
      (hdisj e (List.mem_cons_self e rest))
    have hdisj2 : ∀ f ∈ rest, varKey f ∉ keysOf (setVar m (varKey e) e.html) := by
      intro f hf hmem
      rcases mem_keysOf_setVar _ _ _ _ hmem with h1 | h1
      · exact hdisj f (List.mem_cons_of_mem e hf) h1
      · exact hnd.1 (h1 ▸ List.mem_map.2 ⟨f, hf, rfl⟩)
    rw [ih (setVar m (varKey e) e.html) (keysNodup_setVar _ _ _ hn) hnd.2 hdisj2,
      hlen, List.length_cons]
    omega

theorem length_parseUserVariables_distinct (elems : List VarElem)
    (hnd : (elems.map varKey).Nodup) :
    (parseUserVariables elems).length = elems.length := by
  have hbase := length_parseInto_distinct elems [] List.nodup_nil hnd
    (by intro e _ h; simp at h)
  simpa [parseUserVariables] using hbase

theorem length_processUserVariables_distinct (elems : List VarElem)
    (hnd : (elems.map varKey).Nodup) :
    (processUserVariables elems).length =
      if "baseUrl" ∈ elems.map varKey then elems.length else elems.length + 1 := by
  unfold processUserVariables injectBaseUrlPlaceholder
  have hn : KeysNodup (parseUserVariables elems) :=
    keysNodup_parseInto [] elems List.nodup_nil
  by_cases hb : "baseUrl" ∈ elems.map varKey
  · rw [if_pos hb]
    have hmem : "baseUrl" ∈ keysOf (parseUserVariables elems) := by
      by_contra hc
      have hnone := (lookupVar_eq_none_iff (parseUserVariables elems) "baseUrl").2 hc
      rw [lookupVar_parseUserVariables] at hnone
      exact ((lastVal_eq_none_iff elems "baseUrl").1 hnone) hb
    rw [length_setVar_of_mem _ _ _ hn hmem,
      length_parseUserVariables_distinct elems hnd]
  · rw [if_neg hb]
    have hmem : "baseUrl" ∉ keysOf (parseUserVariables elems) := by
      intro hc
      have hnone : lookupVar (parseUserVariables elems) "baseUrl" = none := by
        rw [lookupVar_parseUserVariables]
        exact (lastVal_eq_none_iff elems "baseUrl").2 hb
      exact ((lookupVar_eq_none_iff _ _).1 hnone) hc
    rw [length_setVar_of_not_mem _ _ _ hmem,
      length_parseUserVariables_distinct elems hnd]

theorem lastVal_self_of_nodup (elems : List VarElem) (e : VarElem)
    (hnd : (elems.map varKey).Nodup) (he : e ∈ elems) :
    lastVal elems (varKey e) = some e.html := by
  induction elems with
  | nil => cases he
  | cons f rest ih =>
    rw [List.map_cons, List.nodup_cons] at hnd
    show (match lastVal rest (varKey e) with
      | some v => some v
      | none => if varKey f = varKey e then some f.html else none) = some e.html
    rcases List.mem_cons.1 he with he1 | he1
    · have hnone : lastVal rest (varKey e) = none := by
        rw [lastVal_eq_none_iff]
        rw [he1]
        exact hnd.1
      rw [hnone]
      rw [he1]
      simp
    · rw [ih hnd.2 he1]

/-! ## Root resolution and the one-shot commands

The include action (src/index.js lines 49-94) and the render action
(lines 100-125) both call `findUp.sync('site.json')`, take `path.dirname`
of the result, and build a config object for the fragment engine.  `findUp`
is modelled by the `Option String` it returns; `undefined` (no marker in
any ancestor) makes the subsequent `path.dirname` call throw, so the
command fails before anything else happens — the spec's `ConfigNotFound`. -/

/-- Model of path.dirname for slash-separated paths: the part before the
last slash, with a dot for a bare name and a slash at the root. -/
def dirnameOf (p : String) : String :=
  match p.toList.reverse.dropWhile (fun c => c ≠ '/') with
  | [] => "."
  | ['/'] => "/"
  | _ :: rest => ⟨rest.reverse⟩

inductive CmdError where
  | configNotFound
  deriving DecidableEq, Repr

/-- Root resolution of both one-shot actions (lines 51-52 and 102-103). -/
def resolveRootPath (siteConfigPath : Option String) : Except CmdError String :=
  match siteConfigPath with
  | none => Except.error CmdError.configNotFound
  | some p => Except.ok (dirnameOf p)

/-- The config object handed to the fragment engine.  The field
`userDefinedVariablesMap` is `none` when the action never assigned that
property to the object. -/
structure CommandConfig where
  rootPath : String
  baseUrlMap : List (String × Bool)
  userDefinedVariablesMap : Option (List (String × VarMap))
  deriving DecidableEq, Repr

/-- Everything observable about one run of a one-shot command: the config
the engine was invoked with (none when the engine was never reached), the
file writes performed, the log entries, and the fatal error if any. -/
structure OneShotRun where
  engineConfig : Option CommandConfig
  writes : List (String × String)
  logs : List LogEntry
  failed : Option CmdError
  deriving DecidableEq, Repr

/-- The continuation of the include action after `markbinder.includeFile`
settles (lines 78-93): write to the output path or print, and on rejection
log the error. -/
def includeFinish (cfg : CommandConfig) (loadLogs : List LogEntry)
    (engineResult : Except String String) (outputOpt : Option String) :
    OneShotRun :=
  match engineResult with
  | Except.ok result =>
      match outputOpt with
      | some outPath =>
          { engineConfig := some cfg
            writes := [(outPath, result)]
            logs := loadLogs ++ [LogEntry.info ("Result was written to " ++ outPath)]
            failed := none }
      | none =>
          { engineConfig := some cfg
            writes := []
            logs := loadLogs
            failed := none }
  | Except.error msg =>
      { engineConfig := some cfg
        writes := []
        logs := loadLogs ++
          [LogEntry.error ("Error processing fragment include:"), LogEntry.error msg]
        failed := none }

/-- The include action (lines 49-94): resolve the root (fatal when findUp
yields no site.json path), read and parse the variables file (non-fatal),
force the baseUrl placeholder, invoke the engine with
`{rootPath, baseUrlMap, userDefinedVariablesMap}`, then write the result to
the output path if one was requested. -/
def includeRun (siteConfigPath : Option String)
    (fileRead : Except String (List VarElem)) (filePath : String)
    (engine : CommandConfig → String → Except String String)
    (outputOpt : Option String) : OneShotRun :=
  match resolveRootPath siteConfigPath with
  | Except.error e =>
      { engineConfig := none, writes := [], logs := [], failed := some e }
  | Except.ok root =>
      let loaded := loadVariableElems fileRead
      let cfg : CommandConfig :=
        { rootPath := root
          baseUrlMap := [(root, true)]
          userDefinedVariablesMap := some [(root, processUserVariables loaded.1)] }
      includeFinish cfg loaded.2 (engine cfg filePath) outputOpt

/-- The continuation of the render action after `markbinder.renderFile`
settles (lines 106-124): beautify and expand through the second nunjucks
pass (`postProcess`), then write or print, and on rejection log the
error. -/
def renderFinish (cfg : CommandConfig) (postProcess : String → String)
    (engineResult : Except String String) (outputOpt : Option String) :
    OneShotRun :=
  match engineResult with
  | Except.ok result =>
      let formatted := postProcess result
      match outputOpt with
      | some outPath =>
          { engineConfig := some cfg
            writes := [(outPath, formatted)]
            logs := [LogEntry.info ("Result was written to " ++ outPath)]
            failed := none }
      | none =>
          { engineConfig := some cfg
            writes := []
            logs := []
            failed := none }
  | Except.error msg =>
      { engineConfig := some cfg
        writes := []
        logs := [LogEntry.error ("Error processing file rendering:"), LogEntry.error msg]
        failed := none }

/-- The render action (lines 100-125): resolve the root, invoke the engine
with `{rootPath, baseUrlMap}` — no variables file is read and no
`userDefinedVariablesMap` property is assigned. -/
def renderRun (siteConfigPath : Option String) (filePath : String)
    (engine : CommandConfig → String → Except String String)
    (postProcess : String → String)
    (outputOpt : Option String) : OneShotRun :=
  match resolveRootPath siteConfigPath with
  | Except.error e =>
      { engineConfig := none, writes := [], logs := [], failed := some e }
  | Except.ok root =>
      let cfg : CommandConfig :=
        { rootPath := root
          baseUrlMap := [(root, true)]
          userDefinedVariablesMap := none }
      renderFinish cfg postProcess (engine cfg filePath) outputOpt

/-! ## Watch events: classification, dispatch and failure isolation

The serve action (lines 153-187) registers three chokidar handlers.  Each
one logs an info line, then inside `Promise.resolve('').then(...)` asks
`fsUtil.isSourceFile(filePath)` and calls the matching Site builder method,
and attaches a `.catch` that only logs the error.  `fsUtil.isSourceFile`
lives outside this file, so the dispatcher is parametric in it; the builder
collaborator is modelled by the outcome it returns for a requested
action. -/

inductive EventKind where
  | add
  | change
  | unlink
  deriving DecidableEq, Repr

inductive BuilderAction where
  | rebuildAffectedSourceFiles (path : String)
  | buildAsset (path : String)
  | removeAsset (path : String)
  deriving DecidableEq, Repr

/-- The branch taken inside the add/change/remove handlers (lines 156-159,
168-171, 180-183). -/
def dispatchEvent (isSourceFile : String → Bool) :
    EventKind → String → BuilderAction
  | EventKind.add, p =>
      if isSourceFile p then BuilderAction.rebuildAffectedSourceFiles p
      else BuilderAction.buildAsset p
  | EventKind.change, p =>
      if isSourceFile p then BuilderAction.rebuildAffectedSourceFiles p
      else BuilderAction.buildAsset p
  | EventKind.unlink, p =>
      if isSourceFile p then BuilderAction.rebuildAffectedSourceFiles p
      else BuilderAction.removeAsset p

/-- The info line each handler logs before dispatching. -/
def reloadMessage : EventKind → String → String
  | EventKind.add, p => "Reload for file add: " ++ p
  | EventKind.change, p => "Reload for file change: " ++ p
  | EventKind.unlink, p => "Reload for file deletion: " ++ p

/-- What one handler invocation produces: its log entries, and whatever
error escapes the handler into the watcher (the `.catch` at lines 160-162,
172-174, 184-186 turns a rejected builder promise into a logged error, so
nothing ever escapes). -/
structure HandlerResult where
  logs : List LogEntry
  propagated : Option String
  deriving DecidableEq, Repr

/-- One chokidar handler invocation: info log, dispatch, await the builder,
catch-and-log a failure. -/
def runWatchHandler (isSourceFile : String → Bool)
    (builder : BuilderAction → Except String Unit)
    (kind : EventKind) (p : String) : HandlerResult :=
  match builder (dispatchEvent isSourceFile kind p) with
  | Except.ok _ =>
      { logs := [LogEntry.info (reloadMessage kind p)], propagated := none }
  | Except.error msg =>
      { logs := [LogEntry.info (reloadMessage kind p), LogEntry.error msg]
        propagated := none }

/-- A stream of watch events handled one after the other; no state is
carried from one event to the next. -/
def runWatchEvents (isSourceFile : String → Bool)
    (builder : BuilderAction → Except String Unit) :
    List (EventKind × String) → List HandlerResult
  | [] => []
  | ev :: rest =>
      runWatchHandler isSourceFile builder ev.1 ev.2 ::
        runWatchEvents isSourceFile builder rest

/-! ## The ignore policy

chokidar.watch is called with
`ignored: [outputFolder, /(^|[/\])\../, endsWith ___jb_tmp___, endsWith ___jb_old___]`
(lines 207-214).  The regex matches a literal dot that follows the start of
the string, a slash or a backslash and is itself followed by one character
that is not a line terminator.  The string entry names the output folder;
per the watcher collaborator's contract an ignored directory is never
traversed, so the entry excludes the whole output subtree. -/

/-- What the JavaScript regex metachar dot accepts: any character except a
line terminator. -/
def jsAnyChar (c : Char) : Bool :=
  c != '\n' && c != '\r' && c != '\u2028' && c != '\u2029'

/-- Does the character list start with a literal dot followed by a
regex-dot-matchable character? -/
def dotPairAt : List Char → Bool
  | '.' :: c :: _ => jsAnyChar c
  | _ => false

/-- Does a slash or backslash followed by such a dot pair occur anywhere? -/
def sepThenDot : List Char → Bool
  | [] => false
  | c :: rest => ((c == '/' || c == '\\') && dotPairAt rest) || sepThenDot rest

/-- The regex entry of the ignore list. -/
def matchesHiddenRegex (p : String) : Bool :=
  dotPairAt p.toList || sepThenDot p.toList

def strStarts (pre p : String) : Bool :=
  pre.toList.isPrefixOf p.toList

def strEnds (p suf : String) : Bool :=
  suf.toList.isSuffixOf p.toList

/-- The full ignore predicate of the serve watcher. -/
def watchIgnore (outputFolder : String) (p : String) : Bool :=
  p == outputFolder || strStarts (outputFolder ++ "/") p ||
    matchesHiddenRegex p ||
    strEnds p ("___jb_tmp___") || strEnds p ("___jb_old___")

/-- The last path component, taken after either separator. -/
def basenameOf (p : String) : String :=
  ⟨(p.toList.reverse.takeWhile (fun c => c != '/' && c != '\\')).reverse⟩

/-- The watch pipeline for one path: a path matching the ignore predicate
is dropped before classification; otherwise the event is classified and
dispatched. -/
def watchPipeline (isSourceFile : String → Bool) (outputFolder : String)
    (kind : EventKind) (p : String) : Option BuilderAction :=
  if watchIgnore outputFolder p then none
  else some (dispatchEvent isSourceFile kind p)

/-! ## The serve promise chain

Lines 200-232: `site.readSiteConfig()` then (register the mount point and
run `site.generate()`) then (install the chokidar watcher) then (start the
live server), with a single `.catch` that logs the error.  The collaborator
outcomes — the site config read and the full generation — are the inputs;
the output is the ordered list of completed steps. -/

structure SiteConfig where
  baseUrl : Option String
  deriving DecidableEq, Repr

inductive ServeStep where
  | readConfig
  | registerMount (base : String) (dir : String)
  | generate
  | installWatcher
  | startServer
  | logError (msg : String)
  deriving DecidableEq, Repr

/-- JavaScript `config.baseUrl || '/'`: both a missing property and the
empty string fall back to the slash. -/
def mountBase (c : SiteConfig) : String :=
  match c.baseUrl with
  | none => "/"
  | some s => if s = "" then "/" else s

/-- A promise together with the steps that completed while producing it. -/
abbrev PromiseResult (α : Type) : Type := List ServeStep × Except String α

/-- Sequencing of promises: a rejected promise skips the continuation. -/
def promiseThen {α β : Type} (p : PromiseResult α)
    (f : α → PromiseResult β) : PromiseResult β :=
  match p.2 with
  | Except.error e => (p.1, Except.error e)
  | Except.ok a =>
      let q := f a
      (p.1 ++ q.1, q.2)

/-- The final catch: a rejection anywhere in the chain ends in one error
log; nothing after the rejection point has run. -/
def promiseCatch {α : Type} (p : PromiseResult α) : List ServeStep :=
  match p.2 with
  | Except.error e => p.1 ++ [ServeStep.logError e]
  | Except.ok _ => p.1

def readConfigStep (cfgOutcome : Except String SiteConfig) :
    PromiseResult SiteConfig :=
  match cfgOutcome with
  | Except.ok c => ([ServeStep.readConfig], Except.ok c)
  | Except.error e => ([], Except.error e)

def generateStep (genOutcome : Except String Unit) : PromiseResult Unit :=
  match genOutcome with
  | Except.ok _ => ([ServeStep.generate], Except.ok ())
  | Except.error e => ([], Except.error e)

/-- The serve action's promise chain, as written at lines 200-232. -/
def serveRun (outputFolder : String) (cfgOutcome : Except String SiteConfig)
    (genOutcome : Except String Unit) : List ServeStep :=
  promiseCatch
    (promiseThen
      (promiseThen
        (promiseThen (readConfigStep cfgOutcome) (fun c =>
          promiseThen
            ([ServeStep.registerMount (mountBase c) outputFolder], Except.ok ())
            (fun _ => generateStep genOutcome)))
        (fun _ => ([ServeStep.installWatcher], Except.ok ())))
      (fun _ => ([ServeStep.startServer], Except.ok ())))

/-! ## Supporting lemmas -/

theorem includeFinish_engineConfig (cfg : CommandConfig) (loadLogs : List LogEntry)
    (engineResult : Except String String) (outputOpt : Option String) :
    (includeFinish cfg loadLogs engineResult outputOpt).engineConfig = some cfg := by
  cases engineResult with
  | ok r =>
    cases outputOpt with
    | some o => rfl
    | none => rfl
  | error msg => rfl

theorem renderFinish_engineConfig (cfg : CommandConfig) (post : String → String)
    (engineResult : Except String String) (outputOpt : Option String) :
    (renderFinish cfg post engineResult outputOpt).engineConfig = some cfg := by
  cases engineResult with
  | ok r =>
    cases outputOpt with
    | some o => rfl
    | none => rfl
  | error msg => rfl

theorem map_varKey_eq_filterMap (elems : List VarElem)
    (hall : ∀ e ∈ elems, e.id.isSome) :
    elems.map varKey = elems.filterMap VarElem.id := by
  induction elems with
  | nil => rfl
  | cons e rest ih =>
    have hsome := hall e (List.mem_cons_self e rest)
    cases hid : e.id with
    | none => rw [hid] at hsome; cases hsome
    | some i =>
      rw [List.map_cons, List.filterMap_cons, hid]
      have hkey : varKey e = i := by
        unfold varKey
        rw [hid]
        rfl
      rw [hkey, ih (fun f hf => hall f (List.mem_cons_of_mem e hf))]

theorem sepThenDot_append (xs : List Char) (s : Char) (ys : List Char)
    (hs : (s == '/' || s == '\\') = true) (hd : dotPairAt ys = true) :
    sepThenDot (xs ++ s :: ys) = true := by
  induction xs with
  | nil => simp [sepThenDot, hs, hd]
  | cons x xs ih => simp [sepThenDot, ih]

theorem dropWhile_head_false {α : Type} (q : α → Bool) (l : List α) (x : α)
    (xs : List α) (h : l.dropWhile q = x :: xs) : q x = false := by
  induction l with
  | nil => cases h
  | cons a l ih =>
    rw [List.dropWhile_cons] at h
    by_cases hq : q a = true
    · rw [if_pos hq] at h
      exact ih h
    · rw [if_neg hq] at h
      cases h
      exact Bool.not_eq_true _ ▸ (by simpa using hq)

theorem matchesHiddenRegex_of_basename (p : String)
    (h : dotPairAt (basenameOf p).toList = true) :
    matchesHiddenRegex p = true := by
  have hq : ∀ cs : List Char,
      cs.takeWhile (fun c => c != '/' && c != '\\') ++
        cs.dropWhile (fun c => c != '/' && c != '\\') = cs :=
    fun cs => List.takeWhile_append_dropWhile (fun c => c != '/' && c != '\\') cs
  have hbn : (basenameOf p).toList =
      (p.toList.reverse.takeWhile (fun c => c != '/' && c != '\\')).reverse := rfl
  have hsplit : p.toList =
      (p.toList.reverse.dropWhile (fun c => c != '/' && c != '\\')).reverse ++
        (p.toList.reverse.takeWhile (fun c => c != '/' && c != '\\')).reverse := by
    conv_lhs => rw [← List.reverse_reverse p.toList]
    conv_lhs => rw [← hq p.toList.reverse]
    rw [List.reverse_append]
  rw [hbn] at h
  unfold matchesHiddenRegex
  cases hdrop : p.toList.reverse.dropWhile (fun c => c != '/' && c != '\\') with
  | nil =>
    rw [hdrop] at hsplit
    simp only [List.reverse_nil, List.nil_append] at hsplit
    rw [hsplit, h]
    rfl
  | cons s ds =>
    have hsep : (fun c => c != '/' && c != '\\') s = false :=
      dropWhile_head_false (fun c => c != '/' && c != '\\') p.toList.reverse s ds hdrop
    have hsep2 : (s == '/' || s == '\\') = true := by
      by_cases h1 : s = '/'
      · simp [h1]
      · by_cases h2 : s = '\\'
        · simp [h2]
        · exfalso
          have hand : (s != '/' && s != '\\') = true := by
            simp [bne_iff_ne, h1, h2]
          have hsep' : (s != '/' && s != '\\') = false := hsep
          rw [hand] at hsep'
          cases hsep'
    rw [hdrop] at hsplit
    rw [List.reverse_cons] at hsplit
    rw [List.append_assoc] at hsplit
    have hmatch : sepThenDot p.toList = true := by
      rw [hsplit]
      exact sepThenDot_append _ _ _ hsep2 h
    rw [hmatch]
    simp

theorem runWatchHandler_propagated (f : String → Bool)
    (builder : BuilderAction → Except String Unit) (kind : EventKind)
    (p : String) : (runWatchHandler f builder kind p).propagated = none := by
  unfold runWatchHandler
  cases builder (dispatchEvent f kind p) with
  | ok r => rfl
  | error msg => rfl

/-! ## The claims -/

/-- C1: In a serve invocation the steps are strictly ordered: the site
configuration is read first, then the full generation runs and completes
before the filesystem watcher is installed, and the watcher is installed
before the preview server is started; if reading the configuration or the
full generation fails, the whole command aborts and neither the watcher
nor the server is ever started. -/
theorem c1_serve_steps_strictly_ordered (out : String) (c : SiteConfig)
    (gen : Except String Unit) (e : String) :
    serveRun out (Except.ok c) (Except.ok ()) =
      [ServeStep.readConfig, ServeStep.registerMount (mountBase c) out,
        ServeStep.generate, ServeStep.installWatcher, ServeStep.startServer] ∧
    serveRun out (Except.error e) gen = [ServeStep.logError e] ∧
    serveRun out (Except.ok c) (Except.error e) =
      [ServeStep.readConfig, ServeStep.registerMount (mountBase c) out,
        ServeStep.logError e] ∧
    ServeStep.installWatcher ∉ serveRun out (Except.error e) gen ∧
    ServeStep.startServer ∉ serveRun out (Except.error e) gen ∧
    ServeStep.installWatcher ∉ serveRun out (Except.ok c) (Except.error e) ∧
    ServeStep.startServer ∉ serveRun out (Except.ok c) (Except.error e) := by
  refine ⟨rfl, rfl, rfl, ?_, ?_, ?_, ?_⟩
  · show ServeStep.installWatcher ∉ [ServeStep.logError e]
    simp
  · show ServeStep.startServer ∉ [ServeStep.logError e]
    simp
  · show ServeStep.installWatcher ∉
      [ServeStep.readConfig, ServeStep.registerMount (mountBase c) out,
        ServeStep.logError e]
    simp
  · show ServeStep.startServer ∉
      [ServeStep.readConfig, ServeStep.registerMount (mountBase c) out,
        ServeStep.logError e]
    simp

/-- Witness for C1 at concrete collaborator outcomes. -/
theorem c1_serve_steps_strictly_ordered_witness :
    serveRun "/r/_site" (Except.ok ⟨some "/docs"⟩) (Except.ok ()) =
      [ServeStep.readConfig,
        ServeStep.registerMount (mountBase ⟨some "/docs"⟩) "/r/_site",
        ServeStep.generate, ServeStep.installWatcher, ServeStep.startServer] :=
  (c1_serve_steps_strictly_ordered "/r/_site" ⟨some "/docs"⟩
    (Except.ok ()) ("err")).1

/-- C2: For every watch event dispatched by the WatchDispatcher: an add or
change event on a path classified as source triggers the incremental
rebuild keyed by that path; an add or change event on an asset path copies
that single asset; an unlink event on a source path also triggers the
incremental rebuild; and an unlink event on an asset path removes the
corresponding output artifact. -/
theorem c2_watch_dispatch_table (f : String → Bool) (p : String) :
    (f p = true →
      dispatchEvent f EventKind.add p = BuilderAction.rebuildAffectedSourceFiles p ∧
      dispatchEvent f EventKind.change p = BuilderAction.rebuildAffectedSourceFiles p ∧
      dispatchEvent f EventKind.unlink p = BuilderAction.rebuildAffectedSourceFiles p) ∧
    (f p = false →
      dispatchEvent f EventKind.add p = BuilderAction.buildAsset p ∧
      dispatchEvent f EventKind.change p = BuilderAction.buildAsset p ∧
      dispatchEvent f EventKind.unlink p = BuilderAction.removeAsset p) := by
  constructor <;> intro h <;> refine ⟨?_, ?_, ?_⟩ <;> simp [dispatchEvent, h]

/-- Witness for C2 with a concrete classifier and concrete paths. -/
theorem c2_watch_dispatch_table_witness :
    dispatchEvent (fun q => q == "a.md") EventKind.add "a.md" =
      BuilderAction.rebuildAffectedSourceFiles "a.md" ∧
    dispatchEvent (fun q => q == "a.md") EventKind.unlink "b.png" =
      BuilderAction.removeAsset "b.png" :=
  ⟨((c2_watch_dispatch_table (fun q => q == "a.md") "a.md").1 (by decide)).1,
    ((c2_watch_dispatch_table (fun q => q == "a.md") "b.png").2 (by decide)).2.2⟩

/-- C3: For every variables file content (including the empty content
substituted when the file is unreadable), the variable map produced by
load + parse + placeholder injection contains the key baseUrl with exactly
the literal string of the baseUrl placeholder, and this injected value
overwrites any baseUrl entry declared in the file itself. -/
theorem c3_variable_map_baseUrl_placeholder
    (fileRead : Except String (List VarElem)) :
    lookupVar (processUserVariables (loadVariableElems fileRead).1) "baseUrl" =
      some "{{baseUrl}}" ∧
    (∀ (elems : List VarElem) (v : String),
      lookupVar (processUserVariables (elems ++ [⟨some "baseUrl", v⟩])) "baseUrl" =
        some "{{baseUrl}}") :=
  ⟨lookupVar_processUserVariables_baseUrl _,
    fun elems v =>
      lookupVar_processUserVariables_baseUrl (elems ++ [⟨some "baseUrl", v⟩])⟩

/-- Witness for C3 at the unreadable-file outcome. -/
theorem c3_variable_map_baseUrl_placeholder_witness :
    lookupVar (processUserVariables
        (loadVariableElems (Except.error ("unreadable"))).1) "baseUrl" =
      some "{{baseUrl}}" :=
  (c3_variable_map_baseUrl_placeholder (Except.error ("unreadable"))).1

/-- C4: For a variables file declaring N distinct ids, load + parse +
injection yields exactly the N declared entries together with a forced
baseUrl entry equal to the placeholder (the baseUrl entry coincides with a
declared one when the file declared its own baseUrl, whose value is
overwritten), and when the same id appears more than once the later
occurrence overwrites the earlier one. -/
theorem c4_variables_distinct_ids_map_shape :
    (∀ elems : List VarElem,
      (∀ e ∈ elems, e.id.isSome) →
      (elems.filterMap VarElem.id).Nodup →
      lookupVar (processUserVariables elems) "baseUrl" = some "{{baseUrl}}" ∧
      (∀ k : String, (lookupVar (processUserVariables elems) k).isSome = true ↔
        (k ∈ elems.filterMap VarElem.id ∨ k = "baseUrl")) ∧
      (∀ e ∈ elems, ∀ i : String, e.id = some i → i ≠ "baseUrl" →
        lookupVar (processUserVariables elems) i = some e.html) ∧
      (processUserVariables elems).length =
        (if "baseUrl" ∈ elems.filterMap VarElem.id then elems.length
          else elems.length + 1)) ∧
    (∀ (elems : List VarElem) (k : String), k ≠ "baseUrl" →
      lookupVar (processUserVariables elems) k = lastVal elems k) := by
  constructor
  · intro elems hall hnd
    have hmap := map_varKey_eq_filterMap elems hall
    have hnd' : (elems.map varKey).Nodup := by
      rw [hmap]
      exact hnd
    refine ⟨lookupVar_processUserVariables_baseUrl elems, ?_, ?_, ?_⟩
    · intro k
      by_cases hk : k = "baseUrl"
      · subst hk
        simp [lookupVar_processUserVariables_baseUrl elems]
      · rw [lookupVar_processUserVariables_ne elems k hk]
        constructor
        · intro hs
          left
          rw [← hmap]
          by_contra hmem
          rw [(lastVal_eq_none_iff elems k).2 hmem] at hs
          simp at hs
        · intro hmem
          rcases hmem with hmem | hmem
          · rw [← hmap] at hmem
            cases hlv : lastVal elems k with
            | none => exact absurd hmem ((lastVal_eq_none_iff elems k).1 hlv)
            | some v => rfl
          · exact absurd hmem hk
    · intro e he i hid hib
      have hkey : varKey e = i := by
        unfold varKey
        rw [hid]
        rfl
      rw [lookupVar_processUserVariables_ne elems i hib, ← hkey]
      exact lastVal_self_of_nodup elems e hnd' he
    · rw [length_processUserVariables_distinct elems hnd', hmap]
  · intro elems k hk
    exact lookupVar_processUserVariables_ne elems k hk

/-- Witness for C4 at a one-element variables file declaring one id. -/
theorem c4_variables_distinct_ids_map_shape_witness :
    lookupVar (processUserVariables [⟨some "a", "1"⟩]) "baseUrl" =
      some "{{baseUrl}}" ∧
    (processUserVariables [⟨some "a", "1"⟩]).length =
      (if "baseUrl" ∈ ([⟨some "a", "1"⟩] : List VarElem).filterMap VarElem.id
        then ([⟨some "a", "1"⟩] : List VarElem).length
        else ([⟨some "a", "1"⟩] : List VarElem).length + 1) :=
  ⟨(c4_variables_distinct_ids_map_shape.1 [⟨some "a", "1"⟩]
      (by decide) (by decide)).1,
    (c4_variables_distinct_ids_map_shape.1 [⟨some "a", "1"⟩]
      (by decide) (by decide)).2.2.2⟩

/-- C5 counterexample: the render action invokes the engine with a config
object that has no userDefinedVariablesMap property — the variables file
is never loaded for render, refuting the claim that both one-shot commands
prepare the VariableStore and pass userDefinedVariablesMap. -/
theorem c5_render_config_lacks_variables_counterexample :
    ((renderRun (some "/r/site.json") ("f.md") (fun _ _ => Except.ok ("out"))
        (fun s => s) none).engineConfig.map
      CommandConfig.userDefinedVariablesMap) = some none := by
  rfl

/-- C5 amended: both one-shot commands resolve the root and invoke the
engine with a config containing rootPath and baseUrlMap; include
additionally loads and prepares the variable store and passes
userDefinedVariablesMap for that root, while render passes no
userDefinedVariablesMap at all. -/
theorem c5_oneshot_engine_config (scp : String)
    (vars : Except String (List VarElem)) (file : String)
    (engine : CommandConfig → String → Except String String)
    (post : String → String) (outputOpt : Option String) :
    (includeRun (some scp) vars file engine outputOpt).engineConfig =
      some { rootPath := dirnameOf scp
             baseUrlMap := [(dirnameOf scp, true)]
             userDefinedVariablesMap :=
               some [(dirnameOf scp,
                 processUserVariables (loadVariableElems vars).1)] } ∧
    (renderRun (some scp) file engine post outputOpt).engineConfig =
      some { rootPath := dirnameOf scp
             baseUrlMap := [(dirnameOf scp, true)]
             userDefinedVariablesMap := none } := by
  constructor
  · exact includeFinish_engineConfig _ _ _ _
  · exact renderFinish_engineConfig _ _ _ _

/-- Witness for the amended C5 at concrete arguments. -/
theorem c5_oneshot_engine_config_witness :
    (renderRun (some "/r/site.json") ("f.md") (fun _ _ => Except.ok ("o"))
        (fun s => s) none).engineConfig =
      some { rootPath := dirnameOf "/r/site.json"
             baseUrlMap := [(dirnameOf "/r/site.json", true)]
             userDefinedVariablesMap := none } :=
  (c5_oneshot_engine_config "/r/site.json" (Except.ok []) "f.md"
    (fun _ _ => Except.ok ("o")) (fun s => s) none).2

/-- C6: An include command run with no site-configuration marker file in
any ancestor directory fails the command with ConfigNotFound and performs
no file writes (no default root is assumed). -/
theorem c6_include_without_root_aborts
    (vars : Except String (List VarElem)) (file : String)
    (engine : CommandConfig → String → Except String String)
    (outputOpt : Option String) :
    includeRun none vars file engine outputOpt =
      { engineConfig := none, writes := [], logs := [],
        failed := some CmdError.configNotFound } := rfl

/-- Witness for C6 at concrete arguments. -/
theorem c6_include_without_root_aborts_witness :
    includeRun none (Except.ok []) "f.md" (fun _ _ => Except.ok ("o")) none =
      { engineConfig := none, writes := [], logs := [],
        failed := some CmdError.configNotFound } :=
  c6_include_without_root_aborts (Except.ok []) "f.md"
    (fun _ _ => Except.ok ("o")) none

/-- C7: Given a nonexistent or unreadable variables file, the load step
does not raise and substitutes an empty mapping; a warning is the only
observable side effect of the failure. -/
theorem c7_variables_unreadable_empty_map (msg : String) :
    loadVariableElems (Except.error msg) = ([], [LogEntry.warn msg]) ∧
    parseUserVariables (loadVariableElems (Except.error msg)).1 = [] :=
  ⟨rfl, rfl⟩

/-- Witness for C7 at a concrete error message. -/
theorem c7_variables_unreadable_empty_map_witness :
    loadVariableElems (Except.error ("no such file")) =
      ([], [LogEntry.warn ("no such file")]) :=
  (c7_variables_unreadable_empty_map ("no such file")).1

/-- C8: For every watch event, a failure of the dispatched builder action
is caught and logged and does not propagate to the watcher or terminate
the process; each event's action is handled independently of other
events. -/
theorem c8_watch_event_failure_isolated (f : String → Bool)
    (builder : BuilderAction → Except String Unit)
    (evs : List (EventKind × String)) :
    (∀ r ∈ runWatchEvents f builder evs, r.propagated = none) ∧
    (∀ (kind : EventKind) (p msg : String),
      builder (dispatchEvent f kind p) = Except.error msg →
      runWatchHandler f builder kind p =
        { logs := [LogEntry.info (reloadMessage kind p), LogEntry.error msg]
          propagated := none }) ∧
    runWatchEvents f builder evs =
      evs.map (fun ev => runWatchHandler f builder ev.1 ev.2) := by
  refine ⟨?_, ?_, ?_⟩
  · induction evs with
    | nil =>
      intro r hr
      cases hr
    | cons ev rest ih =>
      intro r hr
      rcases List.mem_cons.1 hr with h1 | h1
      · rw [h1]
        exact runWatchHandler_propagated f builder ev.1 ev.2
      · exact ih r h1
  · intro kind p msg h
    unfold runWatchHandler
    rw [h]
  · induction evs with
    | nil => rfl
    | cons ev rest ih =>
      show runWatchHandler f builder ev.1 ev.2 :: runWatchEvents f builder rest = _
      rw [List.map_cons, ih]

/-- Witness for C8: a builder that always fails has its error absorbed
into the logs, with nothing propagated. -/
theorem c8_watch_event_failure_isolated_witness :
    runWatchHandler (fun _ => true) (fun _ => Except.error ("boom"))
        EventKind.add "f.md" =
      { logs := [LogEntry.info (reloadMessage EventKind.add "f.md"),
          LogEntry.error "boom"]
        propagated := none } :=
  (c8_watch_event_failure_isolated (fun _ => true)
    (fun _ => Except.error ("boom")) []).2.1 EventKind.add "f.md" "boom" rfl

/-- C9 counterexample: a path whose basename starts with a dot followed by
a line-terminator character is not matched by the ignore predicate (the
regex metachar dot does not match a line terminator), and the dispatcher
classifies and dispatches it — refuting the dot-basename clause of the
claim as stated. -/
theorem c9_dot_basename_not_ignored_counterexample :
    strStarts (".") (basenameOf "/r/src/.\nb") = true ∧
    watchIgnore "/r/_site" "/r/src/.\nb" = false ∧
    watchPipeline (fun _ => true) "/r/_site" EventKind.change "/r/src/.\nb" =
      some (BuilderAction.rebuildAffectedSourceFiles "/r/src/.\nb") := by
  refine ⟨?_, ?_, ?_⟩ <;> decide

/-- C9 amended: for any path equal to or under the output directory, or
whose basename starts with a dot followed by at least one
non-line-terminator character, or that ends with a recognized IDE
temp-file suffix, the watch ignore predicate holds and the pipeline drops
the event before classification: no builder action is produced, whatever
the classifier. -/
theorem c9_watch_ignored_paths_never_dispatched (out p : String)
    (f : String → Bool) (kind : EventKind)
    (h : p = out ∨ strStarts (out ++ "/") p = true ∨
      dotPairAt (basenameOf p).toList = true ∨
      strEnds p ("___jb_tmp___") = true ∨ strEnds p ("___jb_old___") = true) :
    watchIgnore out p = true ∧ watchPipeline f out kind p = none ∧
    (∀ g : String → Bool, watchPipeline g out kind p = none) := by
  have hig : watchIgnore out p = true := by
    unfold watchIgnore
    rcases h with h | h | h | h | h
    · subst h
      simp
    · simp [h]
    · simp [matchesHiddenRegex_of_basename p h]
    · simp [h]
    · simp [h]
  refine ⟨hig, ?_, ?_⟩
  · simp [watchPipeline, hig]
  · intro g
    simp [watchPipeline, hig]

/-- Witness for C9 at a concrete path under the output directory. -/
theorem c9_watch_ignored_paths_never_dispatched_witness :
    watchIgnore "/r/_site" "/r/_site/x.css" = true ∧
    watchPipeline (fun _ => true) "/r/_site" EventKind.add "/r/_site/x.css" =
      none ∧
    (∀ g : String → Bool,
      watchPipeline g "/r/_site" EventKind.add "/r/_site/x.css" = none) :=
  c9_watch_ignored_paths_never_dispatched "/r/_site" "/r/_site/x.css"
    (fun _ => true) EventKind.add (Or.inr (Or.inl (by decide)))

/-- C10: A top-level element of the variables file carrying no id
attribute still contributes an entry to the variable map, stored under the
string key "undefined" (the missing attribute value coerced to a property
name). -/
theorem c10_missing_id_keyed_undefined (elems : List VarElem) (e : VarElem)
    (he : e ∈ elems) (hid : e.id = none) :
    (lookupVar (processUserVariables elems) "undefined").isSome = true ∧
    (∀ html : String,
      lookupVar (processUserVariables [⟨none, html⟩]) "undefined" = some html) := by
  constructor
  · have hkey : varKey e = "undefined" := by
      unfold varKey
      rw [hid]
      rfl
    have hmem : "undefined" ∈ elems.map varKey := by
      rw [← hkey]
      exact List.mem_map.2 ⟨e, he, rfl⟩
    rw [lookupVar_processUserVariables_ne elems "undefined" (by decide)]
    cases hlv : lastVal elems "undefined" with
    | none => exact absurd hmem ((lastVal_eq_none_iff elems "undefined").1 hlv)
    | some v => rfl
  · intro html
    rw [lookupVar_processUserVariables_ne _ _ (by decide)]
    simp [lastVal, varKey]

/-- Witness for C10 at a one-element variables file with no id. -/
theorem c10_missing_id_keyed_undefined_witness :
    (lookupVar (processUserVariables [⟨none, "x"⟩]) "undefined").isSome = true :=
  (c10_missing_id_keyed_undefined [⟨none, "x"⟩] ⟨none, "x"⟩
    (List.mem_cons_self (⟨none, "x"⟩ : VarElem) ([] : List VarElem)) rfl).1

end MarkBindCli
